import Mathlib

/-!
Verification of the pyshovels client library (src/pyshovels/client.py).

The core of the library is the pagination engine `_make_paginated_request`
together with the request executor `_make_request` and the per-identifier
fan-out loops of the public methods (search_contractors,
get_location_monthly_metrics, ...).  This file gives a shallow embedding of
those functions and proves / refutes the frozen specification claims about
them.

Modelling conventions:
  * Python dicts used as query-parameter mappings become association lists
    (`Dict`); `d[k] = v` becomes `dictSet`, `d.get(k)` becomes `dictLookup`,
    `{**d}` is a value copy (which in a value semantics is the identity).
  * The network is an oracle `Nat → TransportOutcome α`: the outcome of the
    n-th HTTP GET issued by the client (`n` counts previous calls).  A page
    body is a `Response α`: the decoded JSON object with its `items` list and
    the optional `next_cursor` / `next_page` keys.  The outer `Option` of
    those two fields records key *presence* (Python `'next_cursor' in
    content`), the inner one records a JSON `null` value.
  * Raised Python exceptions become `Except Exn`; `requests.Session.get`
    raising a transport error and `response.json()` raising on an invalid
    body are the `Exn.transport` / `Exn.jsonDecode` constructors.
  * The `while True` loop of `_make_paginated_request` becomes a step
    function `pagStep` on an explicit `PagState` iterated by a fuel-indexed
    `runPag`; `runPag ... fuel s = none` means the loop has not stopped
    within `fuel` iterations.  Python truthiness tests (`if cursor:`,
    `if page:`) are `truthyS` / `truthyI`.
-/

namespace Pyshovels

/-- A scalar JSON/query-parameter value (string or integer). -/
inductive Value where
  | str : String → Value
  | int : Int → Value
deriving DecidableEq, Repr

/-- A Python dict with string keys, as an association list. -/
abbrev Dict := List (String × Value)

/-- Python `d[k] = v`: replace the binding of `k` if present, else append. -/
def dictSet (d : Dict) (k : String) (v : Value) : Dict :=
  match d with
  | [] => [(k, v)]
  | (k2, v2) :: rest => if k2 = k then (k, v) :: rest else (k2, v2) :: dictSet rest k v

/-- Python `d.get(k)` / `k in d`. -/
def dictLookup (d : Dict) (k : String) : Option Value :=
  match d with
  | [] => none
  | (k2, v2) :: rest => if k2 = k then some v2 else dictLookup rest k

/-- Python truthiness of an optional string (`if cursor:`):
`None` and the empty string are falsy. -/
def truthyS : Option String → Bool
  | none => false
  | some s => s != ""

/-- Python truthiness of an optional int (`if page:`): `None` and `0` are falsy. -/
def truthyI : Option Int → Bool
  | none => false
  | some n => n != 0

/-- A decoded JSON page body as consumed by the pagination engine:
`content.get("items", [])` plus the two optional continuation keys.
`next_cursor = none` means the key is absent, `some none` means the key is
present with value `null`, `some (some c)` means the key holds string `c`;
likewise for `next_page`. -/
structure Response (α : Type) where
  items : List α := []
  next_cursor : Option (Option String) := none
  next_page : Option (Option Int) := none
deriving DecidableEq, Repr

/-- A raised Python exception, as relevant to the client code. -/
inductive Exn where
  | transport : Exn
  | jsonDecode : Exn
  | other : Exn
deriving DecidableEq, Repr

/-- What the transport layer does for one HTTP GET: either
`requests.Session.get` raises a transport-level error, or it yields a
response with a status code and a body (`none` = the body is not valid JSON). -/
inductive TransportOutcome (α : Type) where
  | transportError : TransportOutcome α
  | httpResponse : Nat → Option (Response α) → TransportOutcome α
deriving DecidableEq, Repr

/-- `ShovelsAPI._make_request` (client.py lines 107-136):
```
response = self.session.get(url, params=params, **kwargs)   -- may raise
if response.status_code != 200:
    self.logger.error(...)
    return
result = response.json()                                    -- may raise
return result
```
A transport error propagates as a raised exception (`.error .transport`),
a non-200 status returns `None` (`.ok none`), a 200 status with an invalid
JSON body raises from `response.json()` (`.error .jsonDecode`), and a 200
status with a valid JSON body returns the decoded object. -/
def make_request {α : Type} (o : TransportOutcome α) : Except Exn (Option (Response α)) :=
  match o with
  | .transportError => .error .transport
  | .httpResponse status body =>
    if status ≠ 200 then .ok none
    else
      match body with
      | none => .error .jsonDecode
      | some r => .ok (some r)

/-- The local state of the `while True` loop of `_make_paginated_request`:
the accumulator `results`, the iteration counter `i`, the local variables
`cursor`, `page`, `size` (`sizeV`), the working dict `_params`, and (for the
proofs) the trace `reqs` of the `_params` snapshot sent with each request. -/
structure PagState (α : Type) where
  results : List α
  i : Nat
  cursor : Option String
  page : Option Int
  sizeV : Option Int
  params : Dict
  reqs : List Dict
deriving DecidableEq, Repr

/-- Outcome of one loop iteration: continue looping or leave the loop. -/
inductive StepOut (σ : Type) where
  | next : σ → StepOut σ
  | halt : σ → StepOut σ
deriving DecidableEq, Repr

/-- Python `max_iterations is not None and i == max_iterations`
(client.py line 207). -/
def hitMax : Option Int → Nat → Bool
  | none, _ => false
  | some m, i => (i : Int) == m

/-- The continuation decision of `_make_paginated_request`
(client.py lines 209-218):
```
if 'next_cursor' in content:
    if content["next_cursor"] is None: break
    cursor = content["next_cursor"]
elif 'next_page' in content:
    if content["next_page"] is None: break
    page = content["next_page"]
else:
    break
``` -/
def contDecision {α : Type} (content : Response α) (s : PagState α) : StepOut (PagState α) :=
  match content.next_cursor with
  | some none => .halt s
  | some (some c) => .next { s with cursor := some c }
  | none =>
    match content.next_page with
    | some none => .halt s
    | some (some p) => .next { s with page := some p }
    | none => .halt s

/-- The conditional writes into the working dict at the top of each loop
iteration (client.py lines 195-200):
```
if cursor: _params["cursor"] = cursor
if page:   _params["page"] = page
if size:   _params["size"] = size
``` -/
def updateParams {α : Type} (s : PagState α) : Dict :=
  let p1 := if truthyS s.cursor then dictSet s.params "cursor" (Value.str (s.cursor.getD "")) else s.params
  let p2 := if truthyI s.page then dictSet p1 "page" (Value.int (s.page.getD 0)) else p1
  if truthyI s.sizeV then dictSet p2 "size" (Value.int (s.sizeV.getD 0)) else p2

/-- One iteration of the `while True` loop of `_make_paginated_request`
(client.py lines 192-224).  `i` is incremented first; the truthy locals are
written into `_params` (`updateParams`); the request is issued (the params
snapshot is traced in `reqs`); a raised exception (caught by the loop's
broad `except`) or a `None` result leaves the loop; on success the items are
accumulated, the iteration ceiling is checked, and then the continuation
decision is made. -/
def pagStep {α : Type} (oracle : Nat → TransportOutcome α) (maxIter : Option Int)
    (s : PagState α) : StepOut (PagState α) :=
  let i2 := s.i + 1
  let p3 := updateParams s
  let base : PagState α := { s with i := i2, params := p3, reqs := s.reqs ++ [p3] }
  match make_request (oracle s.i) with
  | .error _ => .halt base
  | .ok none => .halt base
  | .ok (some content) =>
    let s1 : PagState α := { base with results := s.results ++ content.items }
    if hitMax maxIter i2 then .halt s1
    else contDecision content s1

/-- Fuel-indexed iteration of `pagStep`: `some final` when the loop leaves
within `fuel` iterations, `none` otherwise. -/
def runPag {α : Type} (oracle : Nat → TransportOutcome α) (maxIter : Option Int) :
    Nat → PagState α → Option (PagState α)
  | 0, _ => none
  | fuel + 1, s =>
    match pagStep oracle maxIter s with
    | .halt s1 => some s1
    | .next s1 => runPag oracle maxIter fuel s1

/-- The loop state right before the first iteration (client.py lines 187-191):
`results = []`, `i = 0`, the working dict is the resolved params copy. -/
def initState {α : Type} (d : Dict) (page sizeV : Option Int) (cursor : Option String) :
    PagState α :=
  { results := [], i := 0, cursor := cursor, page := page, sizeV := sizeV,
    params := d, reqs := [] }

/-- The loop of `_make_paginated_request` terminates on this oracle from this
state (the Python loop leaves after finitely many iterations). -/
def PagTerminates {α : Type} (oracle : Nat → TransportOutcome α) (maxIter : Option Int)
    (s : PagState α) : Prop :=
  ∃ fuel, (runPag oracle maxIter fuel s).isSome = true

/-- Python `assert page is None or page >= 1` (client.py line 185). -/
def pageOk : Option Int → Bool
  | none => true
  | some p => decide (1 ≤ p)

/-- Python `assert size is None or 1 <= size <= 100` (client.py line 186). -/
def sizeOk : Option Int → Bool
  | none => true
  | some z => decide (1 ≤ z) && decide (z ≤ 100)

/-- The validation failure raised by `_make_paginated_request` before the loop. -/
inductive ValError where
  | badPage : ValError
  | badSize : ValError
deriving DecidableEq, Repr

/-- `ShovelsAPI._make_paginated_request` (client.py lines 138-229): the two
asserts, then `_params = {**params} if params else {}` (a `None` or empty
params gives a fresh empty dict, otherwise a copy), then the loop.
`.error` models the raised `AssertionError`. -/
def make_paginated_request {α : Type} (oracle : Nat → TransportOutcome α)
    (params : Option Dict) (page sizeV : Option Int) (cursor : Option String)
    (maxIter : Option Int) (fuel : Nat) : Except ValError (Option (PagState α)) :=
  if pageOk page = false then .error .badPage
  else if sizeOk sizeV = false then .error .badSize
  else .ok (runPag oracle maxIter fuel
    (initState (match params with | some d => d | none => []) page sizeV cursor))

/-- The per-identifier fan-out loop shared by the public methods
(`search_contractors` client.py lines 525-534, `get_location_monthly_metrics`
lines 316-325, and the other aggregators):
```
for geo_id in geo_ids:
    try:
        results.extend(chain(geo_id))
    except Exception:
        ...log...
        continue
```
`chain` returns `Except` to model a chain that raises. -/
def fanOut {σ α : Type} (chain : σ → Except Exn (List α)) : List σ → List α
  | [] => []
  | g :: gs =>
    (match chain g with
     | .ok l => l
     | .error _ => []) ++ fanOut chain gs

/-! ## Helper lemmas about one loop iteration -/

theorem dictLookup_dictSet_ne (d : Dict) (k k2 : String) (v : Value) (h : k ≠ k2) :
    dictLookup (dictSet d k v) k2 = dictLookup d k2 := by
  induction d with
  | nil => simp [dictSet, dictLookup, h]
  | cons kv rest ih =>
    obtain ⟨k3, v3⟩ := kv
    by_cases h3 : k3 = k
    · subst h3
      simp [dictSet, dictLookup, h]
    · simp only [dictSet, dictLookup, if_neg h3]
      by_cases h4 : k3 = k2 <;> simp [dictLookup, h4, ih]

theorem pagStep_fail {α : Type} (oracle : Nat → TransportOutcome α) (m : Option Int)
    (s : PagState α)
    (h : (∃ e, make_request (oracle s.i) = .error e) ∨ make_request (oracle s.i) = .ok none) :
    ∃ t, pagStep oracle m s = .halt t ∧ t.results = s.results ∧ t.i = s.i + 1 ∧
      t.reqs.length = s.reqs.length + 1 := by
  rcases h with ⟨e, h⟩ | h <;>
  · simp only [pagStep, h]
    exact ⟨_, rfl, rfl, rfl, by simp⟩

theorem pagStep_cursor_next {α : Type} (oracle : Nat → TransportOutcome α) (m : Option Int)
    (s : PagState α) (r : Response α) (c : String)
    (h : oracle s.i = .httpResponse 200 (some r))
    (hc : r.next_cursor = some (some c))
    (hmax : hitMax m (s.i + 1) = false) :
    ∃ t, pagStep oracle m s = .next t ∧ t.results = s.results ++ r.items ∧
      t.i = s.i + 1 ∧ t.cursor = some c ∧ t.page = s.page ∧ t.sizeV = s.sizeV ∧
      t.reqs.length = s.reqs.length + 1 := by
  simp only [pagStep, h, make_request, if_neg (by omega : ¬ (200 : Nat) ≠ 200), hmax,
    Bool.false_eq_true, if_false, contDecision, hc]
  exact ⟨_, rfl, rfl, rfl, rfl, rfl, rfl, by simp⟩

theorem pagStep_cursor_null {α : Type} (oracle : Nat → TransportOutcome α) (m : Option Int)
    (s : PagState α) (r : Response α)
    (h : oracle s.i = .httpResponse 200 (some r))
    (hc : r.next_cursor = some none)
    (hmax : hitMax m (s.i + 1) = false) :
    ∃ t, pagStep oracle m s = .halt t ∧ t.results = s.results ++ r.items ∧
      t.i = s.i + 1 ∧ t.reqs.length = s.reqs.length + 1 := by
  simp only [pagStep, h, make_request, if_neg (by omega : ¬ (200 : Nat) ≠ 200), hmax,
    Bool.false_eq_true, if_false, contDecision, hc]
  exact ⟨_, rfl, rfl, rfl, by simp⟩

/-! ## C1: a cursor chain ending in `next_cursor: null` is fully consumed -/

theorem runPag_consumeChain {α : Type} (oracle : Nat → TransportOutcome α) :
    ∀ (rs : List (Response α)) (s : PagState α) (fuel : Nat),
      rs ≠ [] → rs.length ≤ fuel →
      (∀ j r, rs.get? j = some r → oracle (s.i + j) = .httpResponse 200 (some r)) →
      (∀ j r, rs.get? j = some r → j + 1 < rs.length → ∃ c, r.next_cursor = some (some c)) →
      (∀ r, rs.get? (rs.length - 1) = some r → r.next_cursor = some none) →
      ∃ final, runPag oracle none fuel s = some final ∧
        final.results = s.results ++ (rs.map Response.items).flatten ∧
        final.i = s.i + rs.length ∧
        final.reqs.length = s.reqs.length + rs.length := by
  intro rs
  induction rs with
  | nil => intro s fuel hne; exact absurd rfl hne
  | cons r rest ih =>
    intro s fuel _ hfuel horacle hmid hlast
    obtain ⟨f, rfl⟩ : ∃ f, fuel = f + 1 := ⟨fuel - 1, by simp at hfuel; omega⟩
    have hor0 : oracle s.i = .httpResponse 200 (some r) := by
      simpa using horacle 0 r rfl
    by_cases hrest : rest = []
    · subst hrest
      have hc : r.next_cursor = some none := hlast r rfl
      obtain ⟨t, ht, hres, hi, hreq⟩ :=
        pagStep_cursor_null oracle none s r hor0 hc rfl
      refine ⟨t, by simp [runPag, ht], ?_, ?_, ?_⟩
      · simpa using hres
      · simpa using hi
      · simpa using hreq
    · obtain ⟨c, hc⟩ := hmid 0 r rfl (by
        have : 0 < rest.length := List.length_pos.mpr hrest
        simp only [List.length_cons]
        omega)
      obtain ⟨t, ht, hres, hi, _, _, _, hreq⟩ :=
        pagStep_cursor_next oracle none s r c hor0 hc rfl
      have hlen : 0 < rest.length := List.length_pos.mpr hrest
      obtain ⟨final, hrun, hfres, hfi, hfreq⟩ := ih t f hrest
        (by simp at hfuel; omega)
        (by
          intro j r2 hj
          have := horacle (j + 1) r2 (by simpa using hj)
          rw [hi]
          convert this using 2
          omega)
        (by
          intro j r2 hj hjlen
          refine hmid (j + 1) r2 (by simpa using hj) ?_
          simp only [List.length_cons]
          omega)
        (by
          intro r2 hj
          apply hlast r2
          have h2 : (r :: rest).get? (rest.length - 1 + 1) = rest.get? (rest.length - 1) :=
            List.get?_cons_succ
          simp only [List.length_cons, Nat.add_sub_cancel]
          rw [show rest.length = rest.length - 1 + 1 by omega, h2]
          exact hj)
      refine ⟨final, by simp [runPag, ht, hrun], ?_, ?_, ?_⟩
      · rw [hfres, hres]
        simp [List.append_assoc]
      · rw [hfi, hi]
        simp only [List.length_cons]
        omega
      · rw [hfreq, hreq]
        simp only [List.length_cons]
        omega

/-- C1: for every finite sequence of successful page responses, each
intermediate one carrying a non-null `next_cursor` and the last one carrying
`next_cursor: null`, `_make_paginated_request` (fetch-all mode: no page, size,
cursor or iteration ceiling supplied) returns the concatenation of the
`items` of all responses in arrival order, and the iteration counter `i`
ends equal to the number of responses consumed. -/
theorem c1_cursor_chain_concatenates {α : Type} (oracle : Nat → TransportOutcome α)
    (rs : List (Response α)) (fuel : Nat)
    (hne : rs ≠ []) (hfuel : rs.length ≤ fuel)
    (horacle : ∀ j r, rs.get? j = some r → oracle j = .httpResponse 200 (some r))
    (hmid : ∀ j r, rs.get? j = some r → j + 1 < rs.length → ∃ c, r.next_cursor = some (some c))
    (hlast : ∀ r, rs.get? (rs.length - 1) = some r → r.next_cursor = some none) :
    ∃ final, make_paginated_request oracle none none none none none fuel = .ok (some final) ∧
      final.results = (rs.map Response.items).flatten ∧
      final.i = rs.length ∧
      final.reqs.length = rs.length := by
  obtain ⟨final, hrun, hres, hi, hreq⟩ :=
    runPag_consumeChain oracle rs (initState [] none none none) fuel hne hfuel
      (by simpa [initState] using horacle) hmid hlast
  exact ⟨final, by simp [make_paginated_request, pageOk, sizeOk, hrun],
    by simpa [initState] using hres, by simpa [initState] using hi,
    by simpa [initState] using hreq⟩

/-- Witness for C1 at a concrete two-response cursor chain. -/
def c1rs : List (Response Nat) :=
  [{ items := [1, 2], next_cursor := some (some "c1") },
   { items := [3], next_cursor := some none }]

/-- Witness for C1: the concrete oracle serving `c1rs`. -/
def c1oracle : Nat → TransportOutcome Nat := fun n =>
  match (c1rs).get? n with
  | some r => .httpResponse 200 (some r)
  | none => .transportError

theorem c1_witness :
    ∃ final, make_paginated_request c1oracle none none none none none 2 = .ok (some final) ∧
      final.results = [1, 2, 3] ∧ final.i = 2 ∧ final.reqs.length = 2 := by
  obtain ⟨final, h1, h2, h3, h4⟩ :=
    c1_cursor_chain_concatenates c1oracle c1rs 2 (by decide) (by decide)
      (by
        intro j r hj
        rcases j with _ | j
        · simp only [c1rs, List.get?_cons_zero, Option.some.injEq] at hj
          subst hj
          decide
        · rcases j with _ | j
          · simp only [c1rs, List.get?_cons_succ, List.get?_cons_zero,
              Option.some.injEq] at hj
            subst hj
            decide
          · simp [c1rs] at hj)
      (by
        intro j r hj hlt
        rcases j with _ | j
        · simp only [c1rs, List.get?_cons_zero, Option.some.injEq] at hj
          subst hj
          exact ⟨"c1", rfl⟩
        · simp only [c1rs, List.length_cons, List.length_nil] at hlt
          omega)
      (by
        intro r hj
        simp only [c1rs, List.length_cons, List.length_nil, List.get?_cons_succ,
          List.get?_cons_zero, Option.some.injEq] at hj
        subst hj
        rfl)
  exact ⟨final, h1, by rw [h2]; decide, h3, h4⟩

/-! ## C2 / C3: the iteration ceiling and termination -/

theorem pagStep_hitMax_halt {α : Type} (oracle : Nat → TransportOutcome α) (m : Option Int)
    (s : PagState α) (r : Response α)
    (h : oracle s.i = .httpResponse 200 (some r))
    (hmax : hitMax m (s.i + 1) = true) :
    ∃ t, pagStep oracle m s = .halt t ∧ t.results = s.results ++ r.items ∧
      t.i = s.i + 1 ∧ t.reqs.length = s.reqs.length + 1 := by
  simp only [pagStep, h, make_request, if_neg (by omega : ¬ (200 : Nat) ≠ 200), hmax, if_true]
  exact ⟨_, rfl, rfl, rfl, by simp⟩

theorem pagStep_next_inv {α : Type} (oracle : Nat → TransportOutcome α) (m : Option Int)
    (s t : PagState α) (h : pagStep oracle m s = .next t) :
    t.i = s.i + 1 ∧ hitMax m (s.i + 1) = false := by
  simp only [pagStep] at h
  split at h
  · exact absurd h (by simp)
  · exact absurd h (by simp)
  · rename_i content heq
    split at h
    · exact absurd h (by simp)
    · rename_i hmax
      unfold contDecision at h
      split at h
      · exact absurd h (by simp)
      · cases h
        exact ⟨rfl, by simpa using hmax⟩
      · split at h
        · exact absurd h (by simp)
        · cases h
          exact ⟨rfl, by simpa using hmax⟩
        · exact absurd h (by simp)

theorem runPag_ceiling_isSome {α : Type} (oracle : Nat → TransportOutcome α) (N : Int) :
    ∀ (k : Nat) (s : PagState α), 1 ≤ k → (s.i : Int) + k = N →
      (runPag oracle (some N) k s).isSome = true := by
  intro k
  induction k with
  | zero => intro s hk; exact absurd hk (by omega)
  | succ k ih =>
    intro s _ hN
    simp only [runPag]
    cases hps : pagStep oracle (some N) s with
    | halt t => simp
    | next t =>
      obtain ⟨hti, hmax⟩ := pagStep_next_inv oracle (some N) s t hps
      have hk0 : k ≠ 0 := by
        intro h0
        subst h0
        simp only [hitMax, beq_eq_false_iff_ne, ne_eq] at hmax
        apply hmax
        push_cast
        push_cast at hN
        omega
      exact ih t (by omega) (by rw [hti]; push_cast; push_cast at hN; omega)

/-- C3 (amended): whenever `max_iterations` is set to a positive value `N`,
the loop of `_make_paginated_request` terminates for every response oracle
(within `N` iterations). -/
theorem c3_positive_ceiling_terminates {α : Type} (oracle : Nat → TransportOutcome α)
    (N : Int) (hN : 1 ≤ N) (d : Dict) (page sizeV : Option Int) (cursor : Option String) :
    PagTerminates oracle (some N) (initState (α := α) d page sizeV cursor) := by
  refine ⟨N.toNat, runPag_ceiling_isSome oracle N N.toNat _ (by omega) ?_⟩
  simp only [initState]
  omega

/-- An infinite cursor chain: every fetch succeeds with no items and a
non-null `next_cursor`.  Used to exhibit non-terminating runs. -/
def constCursorOracle : Nat → TransportOutcome Nat := fun _ =>
  .httpResponse 200 (some { items := [], next_cursor := some (some "c") })

theorem runPag_none_of_always_next {α : Type} (oracle : Nat → TransportOutcome α)
    (m : Option Int) (h : ∀ s : PagState α, ∃ t, pagStep oracle m s = .next t) :
    ∀ (fuel : Nat) (s : PagState α), runPag oracle m fuel s = none := by
  intro fuel
  induction fuel with
  | zero => intro s; rfl
  | succ f ih =>
    intro s
    obtain ⟨t, ht⟩ := h s
    simp [runPag, ht, ih]

theorem pagStep_constCursor_next (m : Option Int) (hm : ∀ i, hitMax m (i + 1) = false)
    (s : PagState Nat) : ∃ t, pagStep constCursorOracle m s = .next t := by
  obtain ⟨t, ht, _⟩ :=
    pagStep_cursor_next constCursorOracle m s
      { items := [], next_cursor := some (some "c") } "c" rfl rfl (hm s.i)
  exact ⟨t, ht⟩

/-- C3 counterexample: with `max_iterations` absent and an oracle that keeps
answering successful responses with a non-null `next_cursor`, the loop of
`_make_paginated_request` never terminates — there IS a path on which the
loop runs unboundedly, contradicting the claim as stated. -/
theorem c3_counterexample :
    ¬ PagTerminates constCursorOracle none (initState [] none none none) := by
  rintro ⟨fuel, hf⟩
  rw [runPag_none_of_always_next constCursorOracle none
    (fun s => pagStep_constCursor_next none (fun i => rfl) s) fuel _] at hf
  simp at hf

/-- Witness for C3: a concrete run with ceiling 3 on the infinite chain
does terminate. -/
theorem c3_witness :
    PagTerminates constCursorOracle (some 3) (initState [] none none none) :=
  c3_positive_ceiling_terminates constCursorOracle 3 (by omega) [] none none none

theorem runPag_ceiling_exact {α : Type} (oracle : Nat → TransportOutcome α) (N : Int)
    (hcont : ∀ n, ∃ r c, oracle n = .httpResponse 200 (some r) ∧
      r.next_cursor = some (some c)) :
    ∀ (k : Nat) (s : PagState α), 1 ≤ k → (s.i : Int) + k = N →
      ∃ final, runPag oracle (some N) k s = some final ∧
        final.i = s.i + k ∧ final.reqs.length = s.reqs.length + k := by
  intro k
  induction k with
  | zero => intro s hk; exact absurd hk (by omega)
  | succ k ih =>
    intro s _ hN
    obtain ⟨r, c, hor, hc⟩ := hcont s.i
    by_cases hk0 : k = 0
    · subst hk0
      have hmax : hitMax (some N) (s.i + 1) = true := by
        simp only [hitMax, beq_iff_eq]
        push_cast
        push_cast at hN
        omega
      obtain ⟨t, ht, _, hti, htr⟩ := pagStep_hitMax_halt oracle (some N) s r hor hmax
      exact ⟨t, by simp [runPag, ht], by omega, by omega⟩
    · have hmax : hitMax (some N) (s.i + 1) = false := by
        simp only [hitMax, beq_eq_false_iff_ne, ne_eq]
        push_cast
        push_cast at hN
        omega
      obtain ⟨t, ht, _, hti, _, _, _, htr⟩ :=
        pagStep_cursor_next oracle (some N) s r c hor hc hmax
      obtain ⟨final, hrun, hfi, hfr⟩ := ih t (by omega)
        (by rw [hti]; push_cast; push_cast at hN; omega)
      exact ⟨final, by simp [runPag, ht, hrun], by omega, by omega⟩

/-- C2 (amended): for every ceiling `max_iterations = N` with `N ≥ 1` and
every oracle in which each response succeeds with a non-null `next_cursor`
(an infinite cursor chain), `_make_paginated_request` returns after exactly
`N` fetch calls: the final counter and request trace both have size `N`.
(The restriction to `N ≥ 1` is forced: for `N = 0` the Python check
`i == max_iterations` never fires, see the counterexample.) -/
theorem c2_ceiling_exact_calls {α : Type} (oracle : Nat → TransportOutcome α) (N : Nat)
    (hN : 1 ≤ N)
    (hcont : ∀ n, ∃ r c, oracle n = .httpResponse 200 (some r) ∧
      r.next_cursor = some (some c)) :
    ∃ final, make_paginated_request oracle none none none none (some (N : Int)) N =
        .ok (some final) ∧ final.i = N ∧ final.reqs.length = N := by
  obtain ⟨final, hrun, hfi, hfr⟩ :=
    runPag_ceiling_exact oracle (N : Int) hcont N (initState [] none none none) hN
      (by simp [initState])
  exact ⟨final, by simp [make_paginated_request, pageOk, sizeOk, hrun],
    by simpa [initState] using hfi, by simpa [initState] using hfr⟩

/-- C2 counterexample: with `max_iterations = 0` (a set ceiling) on an
infinite cursor chain, the loop never returns at all — the Python check
`i == max_iterations` compares the counter (which starts at 1) with 0 and
never fires, so the chain does NOT stop at the configured ceiling. -/
theorem c2_counterexample :
    ¬ PagTerminates constCursorOracle (some 0) (initState [] none none none) := by
  rintro ⟨fuel, hf⟩
  have hm : ∀ i, hitMax (some 0) (i + 1) = false := by
    intro i
    simp only [hitMax, beq_eq_false_iff_ne, ne_eq]
    push_cast
    omega
  rw [runPag_none_of_always_next constCursorOracle (some 0)
    (fun s => pagStep_constCursor_next (some 0) hm s) fuel _] at hf
  simp at hf

/-- Witness for C2 at `N = 2` on the concrete infinite cursor chain. -/
theorem c2_witness :
    ∃ final, make_paginated_request constCursorOracle none none none none (some 2) 2 =
        .ok (some final) ∧ final.i = 2 ∧ final.reqs.length = 2 := by
  have h := c2_ceiling_exact_calls constCursorOracle 2 (by omega)
    (fun n => ⟨{ items := [], next_cursor := some (some "c") }, "c", rfl, rfl⟩)
  simpa using h

/-! ## C4: a mid-chain failure returns the partial results -/

theorem runPag_consumeThenFail {α : Type} (oracle : Nat → TransportOutcome α) :
    ∀ (rs : List (Response α)) (s : PagState α),
      (∀ j r, rs.get? j = some r → oracle (s.i + j) = .httpResponse 200 (some r)) →
      (∀ j r, rs.get? j = some r → ∃ c, r.next_cursor = some (some c)) →
      ((∃ e, make_request (oracle (s.i + rs.length)) = .error e) ∨
        make_request (oracle (s.i + rs.length)) = .ok none) →
      ∃ final, runPag oracle none (rs.length + 1) s = some final ∧
        final.results = s.results ++ (rs.map Response.items).flatten ∧
        final.i = s.i + rs.length + 1 := by
  intro rs
  induction rs with
  | nil =>
    intro s _ _ hfail
    obtain ⟨t, ht, hres, hi, _⟩ := pagStep_fail oracle none s (by simpa using hfail)
    exact ⟨t, by simp [runPag, ht], by simp [hres], by simp [hi]⟩
  | cons r rest ih =>
    intro s horacle hcur hfail
    have hor0 : oracle s.i = .httpResponse 200 (some r) := by
      simpa using horacle 0 r rfl
    obtain ⟨c, hc⟩ := hcur 0 r rfl
    obtain ⟨t, ht, hres, hi, _, _, _, _⟩ :=
      pagStep_cursor_next oracle none s r c hor0 hc rfl
    obtain ⟨final, hrun, hfres, hfi⟩ := ih t
      (by
        intro j r2 hj
        have := horacle (j + 1) r2 (by simpa using hj)
        rw [hi]
        convert this using 2
        omega)
      (fun j r2 hj => hcur (j + 1) r2 (by simpa using hj))
      (by
        rw [hi]
        have harith : s.i + 1 + rest.length = s.i + (r :: rest).length := by
          simp only [List.length_cons]
          omega
        rw [harith]
        exact hfail)
    refine ⟨final, ?_, ?_, ?_⟩
    · simp only [List.length_cons]
      simpa [runPag, ht] using hrun
    · rw [hfres, hres]
      simp [List.append_assoc]
    · rw [hfi, hi]
      simp only [List.length_cons]
      omega

/-- C4: for every chain whose first `k` fetches succeed with non-null
cursors and whose fetch `k + 1` fails (a raised transport / JSON error or a
non-200 response, i.e. `_make_request` raising or returning `None`),
`_make_paginated_request` stops and RETURNS (does not raise) exactly the
items accumulated from the `k` successful fetches. -/
theorem c4_midchain_failure_keeps_partial {α : Type} (oracle : Nat → TransportOutcome α)
    (rs : List (Response α))
    (horacle : ∀ j r, rs.get? j = some r → oracle j = .httpResponse 200 (some r))
    (hcur : ∀ j r, rs.get? j = some r → ∃ c, r.next_cursor = some (some c))
    (hfail : (∃ e, make_request (oracle rs.length) = .error e) ∨
      make_request (oracle rs.length) = .ok none) :
    ∃ final, make_paginated_request oracle none none none none none (rs.length + 1) =
        .ok (some final) ∧
      final.results = (rs.map Response.items).flatten ∧
      final.i = rs.length + 1 := by
  obtain ⟨final, hrun, hres, hi⟩ :=
    runPag_consumeThenFail oracle rs (initState [] none none none)
      (by simpa [initState] using horacle) hcur (by simpa [initState] using hfail)
  exact ⟨final, by simp [make_paginated_request, pageOk, sizeOk, hrun],
    by simpa [initState] using hres, by simpa [initState] using hi⟩

/-- Witness for C4: two successful pages, then a transport failure on the
third fetch. -/
def c4rs : List (Response Nat) :=
  [{ items := [10], next_cursor := some (some "k0") },
   { items := [11, 12], next_cursor := some (some "k1") }]

/-- Witness for C4: the concrete oracle serving `c4rs` and then failing. -/
def c4oracle : Nat → TransportOutcome Nat := fun n =>
  match (c4rs).get? n with
  | some r => .httpResponse 200 (some r)
  | none => .transportError

theorem c4_witness :
    ∃ final, make_paginated_request c4oracle none none none none none 3 = .ok (some final) ∧
      final.results = [10, 11, 12] ∧ final.i = 3 := by
  obtain ⟨final, h1, h2, h3⟩ :=
    c4_midchain_failure_keeps_partial c4oracle c4rs
      (by
        intro j r hj
        rcases j with _ | j
        · simp only [c4rs, List.get?_cons_zero, Option.some.injEq] at hj
          subst hj
          decide
        · rcases j with _ | j
          · simp only [c4rs, List.get?_cons_succ, List.get?_cons_zero,
              Option.some.injEq] at hj
            subst hj
            decide
          · simp [c4rs] at hj)
      (by
        intro j r hj
        rcases j with _ | j
        · simp only [c4rs, List.get?_cons_zero, Option.some.injEq] at hj
          subst hj
          exact ⟨"k0", rfl⟩
        · rcases j with _ | j
          · simp only [c4rs, List.get?_cons_succ, List.get?_cons_zero,
              Option.some.injEq] at hj
            subst hj
            exact ⟨"k1", rfl⟩
          · simp [c4rs] at hj)
      (Or.inl ⟨Exn.transport, rfl⟩)
  exact ⟨final, h1, by rw [h2]; decide, h3⟩

/-! ## C5: parameter validation -/

theorem pageOk_false_iff (page : Option Int) :
    pageOk page = false ↔ ∃ p, page = some p ∧ p < 1 := by
  cases page with
  | none => simp [pageOk]
  | some p => simp [pageOk, not_le]

theorem sizeOk_false_iff (sizeV : Option Int) :
    sizeOk sizeV = false ↔ ∃ z, sizeV = some z ∧ (z < 1 ∨ 100 < z) := by
  cases sizeV with
  | none => simp [sizeOk]
  | some z =>
    constructor
    · intro h
      refine ⟨z, rfl, ?_⟩
      by_contra hc
      push_neg at hc
      obtain ⟨h1, h2⟩ := hc
      simp [sizeOk, h1, h2] at h
    · rintro ⟨z2, hz2, h⟩
      cases hz2
      simp only [sizeOk, Bool.and_eq_false_iff, decide_eq_false_iff_not, not_le]
      omega

/-- C5: `_make_paginated_request` raises a validation failure (an
`AssertionError`) if and only if `page` is provided with `page < 1` or
`size` is provided outside `[1, 100]`; moreover a validation failure is
decided before any network call: the failing result does not depend on the
oracle or on how long the loop could run. -/
theorem c5_validation_characterisation {α : Type} (oracle : Nat → TransportOutcome α)
    (params : Option Dict) (page sizeV : Option Int) (cursor : Option String)
    (maxIter : Option Int) (fuel : Nat) :
    ((∃ e, make_paginated_request oracle params page sizeV cursor maxIter fuel = .error e) ↔
      ((∃ p, page = some p ∧ p < 1) ∨ (∃ z, sizeV = some z ∧ (z < 1 ∨ 100 < z))))
    ∧ (∀ (oracle2 : Nat → TransportOutcome α) (fuel2 : Nat),
        (∃ e, make_paginated_request oracle params page sizeV cursor maxIter fuel = .error e) →
        make_paginated_request oracle params page sizeV cursor maxIter fuel =
          make_paginated_request oracle2 params page sizeV cursor maxIter fuel2) := by
  constructor
  · unfold make_paginated_request
    split_ifs with hp hz
    · exact ⟨fun _ => Or.inl ((pageOk_false_iff page).mp hp), fun _ => ⟨ValError.badPage, rfl⟩⟩
    · exact ⟨fun _ => Or.inr ((sizeOk_false_iff sizeV).mp hz), fun _ => ⟨ValError.badSize, rfl⟩⟩
    · constructor
      · rintro ⟨e, he⟩
        exact he.elim
      · rintro (hbad | hbad)
        · exact absurd ((pageOk_false_iff page).mpr hbad) hp
        · exact absurd ((sizeOk_false_iff sizeV).mpr hbad) hz
  · intro oracle2 fuel2 hfail
    unfold make_paginated_request at hfail ⊢
    split_ifs at hfail ⊢ with hp hz
    · rfl
    · rfl
    · obtain ⟨e, he⟩ := hfail
      exact he.elim

/-- Witness for C5: `page = 0` fails validation, `size = 101` fails
validation, and the failing result is oracle- and fuel-independent; while
`page = 1, size = 100` passes validation. -/
theorem c5_witness :
    (∃ e, make_paginated_request constCursorOracle none (some 0) none none none 1 = .error e)
    ∧ make_paginated_request constCursorOracle none (some 0) none none none 1 =
        make_paginated_request constCursorOracle none (some 0) none none none 7
    ∧ (∃ e, make_paginated_request constCursorOracle none none (some 101) none none 1 = .error e)
    ∧ ¬ (∃ e, make_paginated_request constCursorOracle none (some 1) (some 100) none (some 1) 1 =
          .error e) := by
  refine ⟨?_, ?_, ?_, ?_⟩
  · exact (c5_validation_characterisation constCursorOracle none (some 0) none none none 1).1.mpr
      (Or.inl ⟨0, rfl, by omega⟩)
  · exact (c5_validation_characterisation constCursorOracle none (some 0) none none none 1).2
      constCursorOracle 7 ⟨ValError.badPage, rfl⟩
  · exact (c5_validation_characterisation constCursorOracle none none (some 101) none none 1).1.mpr
      (Or.inr ⟨101, rfl, by omega⟩)
  · intro hfail
    have h := (c5_validation_characterisation constCursorOracle none (some 1) (some 100)
      none (some 1) 1).1.mp hfail
    rcases h with ⟨p, hp, hlt⟩ | ⟨z, hz, hlt⟩
    · cases hp
      omega
    · cases hz
      omega

/-! ## C6 / C7: continuation-mode invariants and continuation rules -/

theorem make_request_ok_some {α : Type} (o : TransportOutcome α) (r : Response α) :
    make_request o = .ok (some r) ↔ o = .httpResponse 200 (some r) := by
  cases o with
  | transportError => simp [make_request]
  | httpResponse st body =>
    by_cases hst : st = 200
    · subst hst
      cases body <;> simp [make_request]
    · simp [make_request, hst]

theorem updateParams_page_none {α : Type} (s : PagState α)
    (hpage : s.page = none) (hparams : dictLookup s.params "page" = none) :
    dictLookup (updateParams s) "page" = none := by
  unfold updateParams
  rw [hpage]
  by_cases hcur : truthyS s.cursor <;> by_cases hsz : truthyI s.sizeV <;>
    simp [hcur, hsz, (show truthyI none = false from rfl),
      dictLookup_dictSet_ne _ _ _ _ (by decide : "cursor" ≠ "page"),
      dictLookup_dictSet_ne _ _ _ _ (by decide : "size" ≠ "page"), hparams]

theorem updateParams_cursor_none {α : Type} (s : PagState α)
    (hcursor : s.cursor = none) (hparams : dictLookup s.params "cursor" = none) :
    dictLookup (updateParams s) "cursor" = none := by
  unfold updateParams
  rw [hcursor]
  by_cases hpg : truthyI s.page <;> by_cases hsz : truthyI s.sizeV <;>
    simp [hpg, hsz, (show truthyS none = false from rfl),
      dictLookup_dictSet_ne _ _ _ _ (by decide : "page" ≠ "cursor"),
      dictLookup_dictSet_ne _ _ _ _ (by decide : "size" ≠ "cursor"), hparams]

/-- The shape of the state after one loop iteration, however it ended: the
working dict becomes `updateParams s` and is traced; the `page` local only
changes when a successful response with an absent `next_cursor` key carries
a non-null `next_page`; the `cursor` local only changes when a successful
response carries a non-null `next_cursor`. -/
theorem pagStep_shape {α : Type} (oracle : Nat → TransportOutcome α) (m : Option Int)
    (s t : PagState α)
    (h : pagStep oracle m s = .halt t ∨ pagStep oracle m s = .next t) :
    t.params = updateParams s ∧ t.reqs = s.reqs ++ [updateParams s] ∧ t.sizeV = s.sizeV ∧
    (t.page = s.page ∨ ∃ r p, oracle s.i = .httpResponse 200 (some r) ∧
        r.next_cursor = none ∧ r.next_page = some (some p) ∧ t.page = some p) ∧
    (t.cursor = s.cursor ∨ ∃ r c, oracle s.i = .httpResponse 200 (some r) ∧
        r.next_cursor = some (some c) ∧ t.cursor = some c) := by
  cases hmr : make_request (oracle s.i) with
  | error e =>
    simp only [pagStep, hmr] at h
    rcases h with h | h
    · cases h
      exact ⟨rfl, rfl, rfl, Or.inl rfl, Or.inl rfl⟩
    · exact absurd h (by simp)
  | ok o =>
    cases o with
    | none =>
      simp only [pagStep, hmr] at h
      rcases h with h | h
      · cases h
        exact ⟨rfl, rfl, rfl, Or.inl rfl, Or.inl rfl⟩
      · exact absurd h (by simp)
    | some content =>
      have hor : oracle s.i = .httpResponse 200 (some content) :=
        (make_request_ok_some (oracle s.i) content).mp hmr
      simp only [pagStep, hmr] at h
      by_cases hmax : hitMax m (s.i + 1) = true
      · simp only [hmax, if_true] at h
        rcases h with h | h
        · cases h
          exact ⟨rfl, rfl, rfl, Or.inl rfl, Or.inl rfl⟩
        · exact absurd h (by simp)
      · rw [Bool.not_eq_true] at hmax
        simp only [hmax, Bool.false_eq_true, if_false, contDecision] at h
        rcases hc : content.next_cursor with _ | oc
        · rcases hp : content.next_page with _ | op
          · simp only [hc, hp] at h
            rcases h with h | h
            · cases h
              exact ⟨rfl, rfl, rfl, Or.inl rfl, Or.inl rfl⟩
            · exact absurd h (by simp)
          · cases op with
            | none =>
              simp only [hc, hp] at h
              rcases h with h | h
              · cases h
                exact ⟨rfl, rfl, rfl, Or.inl rfl, Or.inl rfl⟩
              · exact absurd h (by simp)
            | some p =>
              simp only [hc, hp] at h
              rcases h with h | h
              · exact absurd h (by simp)
              · cases h
                exact ⟨rfl, rfl, rfl, Or.inr ⟨content, p, hor, hc, hp, rfl⟩, Or.inl rfl⟩
        · cases oc with
          | none =>
            simp only [hc] at h
            rcases h with h | h
            · cases h
              exact ⟨rfl, rfl, rfl, Or.inl rfl, Or.inl rfl⟩
            · exact absurd h (by simp)
          | some c =>
            simp only [hc] at h
            rcases h with h | h
            · exact absurd h (by simp)
            · cases h
              exact ⟨rfl, rfl, rfl, Or.inl rfl, Or.inr ⟨content, c, hor, hc, rfl⟩⟩

theorem runPag_never_page {α : Type} (oracle : Nat → TransportOutcome α) (m : Option Int)
    (hor : ∀ n r, oracle n = .httpResponse 200 (some r) → r.next_cursor = none →
      ∀ p, r.next_page ≠ some (some p)) :
    ∀ (fuel : Nat) (s final : PagState α), s.page = none →
      dictLookup s.params "page" = none →
      (∀ d ∈ s.reqs, dictLookup d "page" = none) →
      runPag oracle m fuel s = some final →
      ∀ d ∈ final.reqs, dictLookup d "page" = none := by
  intro fuel
  induction fuel with
  | zero =>
    intro s final _ _ _ h
    exact absurd h (by simp [runPag])
  | succ f ih =>
    intro s final hpage hparams hreqs hrun
    simp only [runPag] at hrun
    cases hps : pagStep oracle m s with
    | halt t =>
      rw [hps] at hrun
      cases hrun
      obtain ⟨_, hreqs2, _, _, _⟩ := pagStep_shape oracle m s final (Or.inl hps)
      intro d hd
      rw [hreqs2] at hd
      rcases List.mem_append.mp hd with hd | hd
      · exact hreqs d hd
      · rw [List.mem_singleton.mp hd]
        exact updateParams_page_none s hpage hparams
    | next t =>
      rw [hps] at hrun
      obtain ⟨hparams2, hreqs2, _, hpg, _⟩ := pagStep_shape oracle m s t (Or.inr hps)
      have htpage : t.page = none := by
        rcases hpg with hpg | ⟨r, p, hoeq, hcnone, hpsome, _⟩
        · rw [hpg, hpage]
        · exact absurd hpsome (hor _ r hoeq hcnone p)
      refine ih t final htpage ?_ ?_ hrun
      · rw [hparams2]
        exact updateParams_page_none s hpage hparams
      · intro d hd
        rw [hreqs2] at hd
        rcases List.mem_append.mp hd with hd | hd
        · exact hreqs d hd
        · rw [List.mem_singleton.mp hd]
          exact updateParams_page_none s hpage hparams

theorem runPag_never_cursor {α : Type} (oracle : Nat → TransportOutcome α) (m : Option Int)
    (hor : ∀ n r, oracle n = .httpResponse 200 (some r) →
      ∀ c, r.next_cursor ≠ some (some c)) :
    ∀ (fuel : Nat) (s final : PagState α), s.cursor = none →
      dictLookup s.params "cursor" = none →
      (∀ d ∈ s.reqs, dictLookup d "cursor" = none) →
      runPag oracle m fuel s = some final →
      ∀ d ∈ final.reqs, dictLookup d "cursor" = none := by
  intro fuel
  induction fuel with
  | zero =>
    intro s final _ _ _ h
    exact absurd h (by simp [runPag])
  | succ f ih =>
    intro s final hcursor hparams hreqs hrun
    simp only [runPag] at hrun
    cases hps : pagStep oracle m s with
    | halt t =>
      rw [hps] at hrun
      cases hrun
      obtain ⟨_, hreqs2, _, _, _⟩ := pagStep_shape oracle m s final (Or.inl hps)
      intro d hd
      rw [hreqs2] at hd
      rcases List.mem_append.mp hd with hd | hd
      · exact hreqs d hd
      · rw [List.mem_singleton.mp hd]
        exact updateParams_cursor_none s hcursor hparams
    | next t =>
      rw [hps] at hrun
      obtain ⟨hparams2, hreqs2, _, _, hcur⟩ := pagStep_shape oracle m s t (Or.inr hps)
      have htcursor : t.cursor = none := by
        rcases hcur with hcur | ⟨r, c, hoeq, hcsome, _⟩
        · rw [hcur, hcursor]
        · exact absurd hcsome (hor _ r hoeq c)
      refine ih t final htcursor ?_ ?_ hrun
      · rw [hparams2]
        exact updateParams_cursor_none s hcursor hparams
      · intro d hd
        rw [hreqs2] at hd
        rcases List.mem_append.mp hd with hd | hd
        · exact hreqs d hd
        · rw [List.mem_singleton.mp hd]
          exact updateParams_cursor_none s hcursor hparams

theorem pagStep_neither_halt {α : Type} (oracle : Nat → TransportOutcome α) (m : Option Int)
    (s : PagState α) (r : Response α)
    (h : oracle s.i = .httpResponse 200 (some r))
    (hc : r.next_cursor = none) (hp : r.next_page = none) :
    ∃ t, pagStep oracle m s = .halt t := by
  by_cases hmax : hitMax m (s.i + 1) = true
  · obtain ⟨t, ht, _⟩ := pagStep_hitMax_halt oracle m s r h hmax
    exact ⟨t, ht⟩
  · rw [Bool.not_eq_true] at hmax
    simp only [pagStep, h, make_request, if_neg (by omega : ¬ (200 : Nat) ≠ 200), hmax,
      Bool.false_eq_true, if_false, contDecision, hc, hp]
    exact ⟨_, rfl⟩

/-- C6 (amended): within one chain, (a) a request never carries both a
`cursor` and a `page` query parameter PROVIDED the caller did not start the
chain with the other mode already set: if the chain starts with no `page`
argument and no `page` key in the base params and no consumed response
triggers a page assignment (cursor mode), or symmetrically with no `cursor`
argument/key and no response carrying a non-null `next_cursor` (page mode),
then every request of the chain lacks the other mode's parameter; and (b) a
successful response containing neither continuation key stops the chain at
that iteration.  (The proviso is forced: the code never clears a previously
set `page` when the server switches to cursor continuation, see the
counterexample where a request carries both parameters.) -/
theorem c6_mode_exclusivity {α : Type} (oracle : Nat → TransportOutcome α)
    (maxIter : Option Int) :
    (∀ (d : Dict) (page0 sizeV0 : Option Int) (cursor0 : Option String) (fuel : Nat)
        (final : PagState α),
      ((page0 = none ∧ dictLookup d "page" = none ∧
          (∀ n r, oracle n = .httpResponse 200 (some r) → r.next_cursor = none →
            ∀ p, r.next_page ≠ some (some p))) ∨
       (cursor0 = none ∧ dictLookup d "cursor" = none ∧
          (∀ n r, oracle n = .httpResponse 200 (some r) →
            ∀ c, r.next_cursor ≠ some (some c)))) →
      runPag oracle maxIter fuel (initState d page0 sizeV0 cursor0) = some final →
      ∀ dr ∈ final.reqs, dictLookup dr "cursor" = none ∨ dictLookup dr "page" = none)
    ∧ (∀ (s : PagState α) (r : Response α), oracle s.i = .httpResponse 200 (some r) →
        r.next_cursor = none → r.next_page = none →
        ∃ t, pagStep oracle maxIter s = .halt t) := by
  constructor
  · intro d page0 sizeV0 cursor0 fuel final hmode hrun dr hdr
    rcases hmode with ⟨hp0, hd, hor⟩ | ⟨hc0, hd, hor⟩
    · refine Or.inr ?_
      refine runPag_never_page oracle maxIter hor fuel _ final ?_ ?_ ?_ hrun dr hdr
      · simpa [initState] using hp0
      · simpa [initState] using hd
      · simp [initState]
    · refine Or.inl ?_
      refine runPag_never_cursor oracle maxIter hor fuel _ final ?_ ?_ ?_ hrun dr hdr
      · simpa [initState] using hc0
      · simpa [initState] using hd
      · simp [initState]
  · exact fun s r h hc hp => pagStep_neither_halt oracle maxIter s r h hc hp

/-- An oracle that always answers a page carrying a non-null `next_cursor`:
used to show a page-mode chain being switched to cursor continuation. -/
def c6oracle : Nat → TransportOutcome Nat := fun _ =>
  .httpResponse 200 (some { items := [], next_cursor := some (some "ab") })

/-- C6 counterexample: a chain started with `page = 1` whose first response
carries a non-null `next_cursor` sends a SECOND request that carries both a
`page` and a `cursor` parameter — the stale `page` is never cleared, so
cursor and page semantics ARE used simultaneously within one chain,
contradicting the claim as stated. -/
theorem c6_counterexample :
    (runPag c6oracle (some 2) 2 (initState [] (some 1) none none)).map
        (fun s => s.reqs.map
          (fun d2 => ((dictLookup d2 "cursor").isSome, (dictLookup d2 "page").isSome))) =
      some [(false, true), (true, true)] := by
  decide

/-- Witness for C6: a pure cursor-mode chain (no initial page) never sends a
`page` parameter, so no request carries both. -/
theorem c6_witness :
    ∃ final, runPag constCursorOracle (some 1) 1 (initState [] none none none) = some final ∧
      ∀ dr ∈ final.reqs, dictLookup dr "cursor" = none ∨ dictLookup dr "page" = none := by
  have hor : ∀ n r, constCursorOracle n = .httpResponse 200 (some r) → r.next_cursor = none →
      ∀ p, r.next_page ≠ some (some p) := by
    intro n r h hc p
    simp only [constCursorOracle, TransportOutcome.httpResponse.injEq, Option.some.injEq] at h
    rw [← h.2] at hc
    exact absurd hc (by simp)
  cases hrun : runPag constCursorOracle (some 1) 1 (initState [] none none none) with
  | none => exact absurd hrun (by decide)
  | some final =>
    exact ⟨final, rfl,
      (c6_mode_exclusivity constCursorOracle (some 1)).1 [] none none none 1 final
        (Or.inl ⟨rfl, rfl, hor⟩) hrun⟩

/-- C7 (amended): on a successful response, when the iteration ceiling has
not just been reached: a `next_cursor` key with value null stops the chain;
a `next_cursor` key with ANY non-null value — including the empty string —
sets the cursor to that value and continues the loop; likewise a `next_page`
key (when `next_cursor` is absent) with value null stops the chain and with
any non-null value sets the page and continues.  (Only the null value stops
the chain: an empty-string cursor is a continuation value for the code, see
the counterexample.) -/
theorem c7_continuation_rules {α : Type} (oracle : Nat → TransportOutcome α)
    (maxIter : Option Int) (s : PagState α) (r : Response α)
    (h : oracle s.i = .httpResponse 200 (some r))
    (hmax : hitMax maxIter (s.i + 1) = false) :
    (r.next_cursor = some none → ∃ t, pagStep oracle maxIter s = .halt t) ∧
    (∀ c, r.next_cursor = some (some c) →
      ∃ t, pagStep oracle maxIter s = .next t ∧ t.cursor = some c) ∧
    (r.next_cursor = none → r.next_page = some none →
      ∃ t, pagStep oracle maxIter s = .halt t) ∧
    (∀ p, r.next_cursor = none → r.next_page = some (some p) →
      ∃ t, pagStep oracle maxIter s = .next t ∧ t.page = some p) := by
  refine ⟨?_, ?_, ?_, ?_⟩
  · intro hc
    obtain ⟨t, ht, _⟩ := pagStep_cursor_null oracle maxIter s r h hc hmax
    exact ⟨t, ht⟩
  · intro c hc
    obtain ⟨t, ht, _, _, htc, _⟩ := pagStep_cursor_next oracle maxIter s r c h hc hmax
    exact ⟨t, ht, htc⟩
  · intro hc hp
    simp only [pagStep, h, make_request, if_neg (by omega : ¬ (200 : Nat) ≠ 200), hmax,
      Bool.false_eq_true, if_false, contDecision, hc, hp]
    exact ⟨_, rfl⟩
  · intro p hc hp
    simp only [pagStep, h, make_request, if_neg (by omega : ¬ (200 : Nat) ≠ 200), hmax,
      Bool.false_eq_true, if_false, contDecision, hc, hp]
    exact ⟨_, rfl, rfl⟩

/-- An oracle whose every response carries `next_cursor: ""` (the empty
string — an "empty" but non-null continuation value). -/
def c7oracle : Nat → TransportOutcome Nat := fun _ =>
  .httpResponse 200 (some { items := [9], next_cursor := some (some "") })

/-- C7 counterexample: the first response carries a `next_cursor` key whose
value is the empty string; the claim says an empty value transitions to
DONE (one fetch), but the code only stops on null: with a ceiling of 2 the
chain performs a second fetch (`i = 2`), so the chain did NOT stop at the
empty cursor. -/
theorem c7_counterexample :
    c7oracle 0 = .httpResponse 200 (some { items := [9], next_cursor := some (some "") }) ∧
    (runPag c7oracle (some 2) 2 (initState [] none none none)).map (fun s => s.i) = some 2 := by
  constructor
  · rfl
  · decide

/-- Witness for C7: a null `next_cursor` on the first response stops the
chain after one iteration. -/
def c7nullOracle : Nat → TransportOutcome Nat := fun _ =>
  .httpResponse 200 (some { items := [], next_cursor := some none })

theorem c7_witness :
    ∃ t, pagStep c7nullOracle none (initState [] none none none) = .halt t :=
  (c7_continuation_rules c7nullOracle none (initState [] none none none)
    { items := [], next_cursor := some none } rfl rfl).1 rfl

/-! ## C8: the request executor -/

/-- C8 counterexample: a transport-level error does NOT result in a returned
failure value — `_make_request` has no try/except around
`self.session.get(...)`, so the transport exception propagates (raises) to
the caller, contradicting the claim; it is the pagination engine's broad
`except` that later absorbs it. -/
theorem c8_counterexample :
    make_request (α := Nat) TransportOutcome.transportError = .error Exn.transport := rfl

/-- C8 (amended): `_make_request` returns a failure value (`None`) exactly
for a non-200 HTTP status (after logging the status code and response text);
a transport-level error and an invalid JSON body on a 200 response are
raised as exceptions to the caller (which the pagination engine catches);
on HTTP 200 with a valid JSON body it returns the decoded object. -/
theorem c8_executor_contract {α : Type} :
    (∀ (st : Nat) (body : Option (Response α)), st ≠ 200 →
      make_request (.httpResponse st body) = .ok none) ∧
    make_request (α := α) .transportError = .error .transport ∧
    make_request (α := α) (.httpResponse 200 none) = .error .jsonDecode ∧
    (∀ r : Response α, make_request (.httpResponse 200 (some r)) = .ok (some r)) := by
  refine ⟨?_, rfl, rfl, fun r => rfl⟩
  intro st body h
  simp [make_request, h]

/-- Witness for C8: a 404 with any body returns the `None` failure value. -/
theorem c8_witness : make_request (α := Nat) (.httpResponse 404 none) = .ok none :=
  (c8_executor_contract (α := Nat)).1 404 none (by omega)

/-! ## C9: fan-out isolation of per-identifier failures -/

/-- C9: in a fan-out over identifiers `[A, B, C]` where B's chain raises an
unexpected error while A's and C's chains succeed, the aggregate result is
exactly A's items followed by C's items (B contributes none), and the batch
is not aborted: the loop catches the error and continues with the next
identifier. -/
theorem c9_fanout_isolates_failure {σ α : Type} (chain : σ → Except Exn (List α))
    (A B C : σ) (la lc : List α) (e : Exn)
    (hA : chain A = .ok la) (hB : chain B = .error e) (hC : chain C = .ok lc) :
    fanOut chain [A, B, C] = la ++ lc := by
  simp [fanOut, hA, hB, hC]

/-- Witness for C9 at a concrete three-identifier batch. -/
def c9chain : Nat → Except Exn (List Nat) := fun n =>
  if n = 0 then .ok [1, 2]
  else if n = 1 then .error .other
  else .ok [3]

theorem c9_witness : fanOut c9chain [0, 1, 2] = [1, 2] ++ [3] :=
  c9_fanout_isolates_failure c9chain 0 1 2 [1, 2] [3] Exn.other rfl rfl rfl

/-! ## C10: the caller's params dict is never mutated

The frame/aliasing claim needs object identity, so `_make_paginated_request`
and `search_contractors` are re-translated here over a small object heap of
dict objects: `{**params}` allocates a fresh dict object holding a copy of
the caller's dict, and `d[k] = v` is an in-place write to a dict object.
The control flow is the same translation as `pagStep`/`runPag` above; only
the representation of the working dict differs. -/

/-- An object heap of Python dict objects; a reference is an index. -/
abbrev Heap := List Dict

/-- Dereference a dict object. -/
def heapGet (h : Heap) (r : Nat) : Dict := h.getD r []

/-- Overwrite a dict object in place. -/
def heapSet (h : Heap) (r : Nat) (d : Dict) : Heap := h.set r d

/-- Python `d[k] = v` on the dict object `r`. -/
def heapSetKey (h : Heap) (r : Nat) (k : String) (v : Value) : Heap :=
  heapSet h r (dictSet (heapGet h r) k v)

/-- The loop state of `_make_paginated_request` in the heap model: as
`PagState` but the working dict is the heap object `pr`. -/
structure PagStateH (α : Type) where
  results : List α
  i : Nat
  cursor : Option String
  page : Option Int
  sizeV : Option Int
  pr : Nat
  heap : Heap
deriving DecidableEq, Repr

/-- Heap version of `updateParams`: the conditional writes of client.py
lines 195-200 go to the working dict object `pr`. -/
def updateParamsH {α : Type} (s : PagStateH α) : Heap :=
  let h1 := if truthyS s.cursor then heapSetKey s.heap s.pr "cursor" (Value.str (s.cursor.getD "")) else s.heap
  let h2 := if truthyI s.page then heapSetKey h1 s.pr "page" (Value.int (s.page.getD 0)) else h1
  if truthyI s.sizeV then heapSetKey h2 s.pr "size" (Value.int (s.sizeV.getD 0)) else h2

/-- Heap version of `pagStep`: one iteration of the loop of
`_make_paginated_request` (client.py lines 192-224). -/
def pagStepH {α : Type} (oracle : Nat → TransportOutcome α) (maxIter : Option Int)
    (s : PagStateH α) : StepOut (PagStateH α) :=
  let i2 := s.i + 1
  let h3 := updateParamsH s
  let base : PagStateH α := { s with i := i2, heap := h3 }
  match make_request (oracle s.i) with
  | .error _ => .halt base
  | .ok none => .halt base
  | .ok (some content) =>
    let s1 : PagStateH α := { base with results := s.results ++ content.items }
    if hitMax maxIter i2 then .halt s1
    else
      match content.next_cursor with
      | some none => .halt s1
      | some (some c) => .next { s1 with cursor := some c }
      | none =>
        match content.next_page with
        | some none => .halt s1
        | some (some p) => .next { s1 with page := some p }
        | none => .halt s1

/-- Heap version of `runPag`. -/
def runPagH {α : Type} (oracle : Nat → TransportOutcome α) (maxIter : Option Int) :
    Nat → PagStateH α → Option (PagStateH α)
  | 0, _ => none
  | fuel + 1, s =>
    match pagStepH oracle maxIter s with
    | .halt s1 => some s1
    | .next s1 => runPagH oracle maxIter fuel s1

/-- Entry of `_make_paginated_request` in the heap model:
`_params = {**params} if params else {}` allocates a FRESH dict object
(reference `h.length`) holding a copy of the caller's dict (or `{}`). -/
def initStateH {α : Type} (h : Heap) (paramsRef : Option Nat)
    (page sizeV : Option Int) (cursor : Option String) : PagStateH α :=
  let base := match paramsRef with | some r => heapGet h r | none => []
  { results := [], i := 0, cursor := cursor, page := page, sizeV := sizeV,
    pr := h.length, heap := h ++ [base] }

/-- Python truthiness of a scalar value. -/
def truthyV : Value → Bool
  | .str s => s != ""
  | .int n => n != 0

/-- Python `d.get(k) or default`. -/
def valOr (o : Option Value) (dflt : Value) : Value :=
  match o with
  | some v => if truthyV v then v else dflt
  | none => dflt

/-- The per-geo-id loop of `search_contractors` (client.py lines 525-534) in
the heap model: each iteration writes `_params["geo_id"] = geo_id` into the
shared working dict object `scRef` and runs one pagination chain on it
(which itself allocates its own copy).  `none` propagates a chain that does
not stop within `fuel` iterations (no Python analogue; the Python
`except: continue` path is not exercised here because the chain is invoked
with valid arguments and returns normally). -/
def scLoopH {α : Type} (oracleFam : String → Nat → TransportOutcome α)
    (maxIter : Option Int) (fuel : Nat) (scRef : Nat) :
    List String → Heap → Option (List α × Heap)
  | [], h => some ([], h)
  | g :: gs, h =>
    let h1 := heapSetKey h scRef "geo_id" (Value.str g)
    match runPagH (oracleFam g) maxIter fuel (initStateH h1 (some scRef) none none none) with
    | none => none
    | some final =>
      match scLoopH oracleFam maxIter fuel scRef gs final.heap with
      | none => none
      | some (rest, h2) => some (final.results ++ rest, h2)

/-- `ShovelsAPI.search_contractors` (client.py lines 482-536) in the heap
model: `_params = {**params} if params else {}` allocates the fresh working
dict `scRef`; the `permit_from` / `permit_to` defaults
(`_params.get(k) or default`) are written once; then the per-geo-id loop
runs.  The date strings are injected (`todayStr`, `defaultFrom`). -/
def search_contractors {α : Type} (oracleFam : String → Nat → TransportOutcome α)
    (maxIter : Option Int) (fuel : Nat) (geo_ids : List String) (h : Heap)
    (paramsRef : Option Nat) (todayStr defaultFrom : String) :
    Option (List α × Heap) :=
  let base := match paramsRef with | some r => heapGet h r | none => []
  let scRef := h.length
  let h1 := h ++ [base]
  let h2 := heapSetKey h1 scRef "permit_from"
    (valOr (dictLookup (heapGet h1 scRef) "permit_from") (Value.str defaultFrom))
  let h3 := heapSetKey h2 scRef "permit_to"
    (valOr (dictLookup (heapGet h2 scRef) "permit_to") (Value.str todayStr))
  scLoopH oracleFam maxIter fuel scRef geo_ids h3

theorem heapGet_heapSet_ne (h : Heap) (r r2 : Nat) (d : Dict) (hne : r2 ≠ r) :
    heapGet (heapSet h r d) r2 = heapGet h r2 := by
  simp [heapGet, heapSet, List.getD_eq_getElem?_getD,
    List.getElem?_set_ne (fun he => hne he.symm)]

theorem heapSet_length (h : Heap) (r : Nat) (d : Dict) :
    (heapSet h r d).length = h.length := List.length_set h r d

theorem heapSetKey_frame (h : Heap) (r : Nat) (k : String) (v : Value) (r2 : Nat)
    (hne : r2 ≠ r) : heapGet (heapSetKey h r k v) r2 = heapGet h r2 :=
  heapGet_heapSet_ne _ _ _ _ hne

theorem heapSetKey_length (h : Heap) (r : Nat) (k : String) (v : Value) :
    (heapSetKey h r k v).length = h.length := heapSet_length _ _ _

theorem heapGet_append_lt (h : Heap) (d : Dict) (r : Nat) (hr : r < h.length) :
    heapGet (h ++ [d]) r = heapGet h r := by
  simp [heapGet, List.getD_eq_getElem?_getD, List.getElem?_append_left hr]

theorem updateParamsH_length {α : Type} (s : PagStateH α) :
    (updateParamsH s).length = s.heap.length := by
  unfold updateParamsH
  by_cases h1 : truthyS s.cursor <;> by_cases h2 : truthyI s.page <;>
    by_cases h3 : truthyI s.sizeV <;>
    simp [h1, h2, h3, heapSetKey_length]

theorem updateParamsH_get_ne {α : Type} (s : PagStateH α) (r2 : Nat) (hne : r2 ≠ s.pr) :
    heapGet (updateParamsH s) r2 = heapGet s.heap r2 := by
  unfold updateParamsH
  by_cases h1 : truthyS s.cursor <;> by_cases h2 : truthyI s.page <;>
    by_cases h3 : truthyI s.sizeV <;>
    simp [h1, h2, h3, heapSetKey_frame, hne]

/-- Every iteration of the heap-model loop writes only the working dict
object `pr`: the reference, the heap size, and every other object are
preserved. -/
theorem pagStepH_frame {α : Type} (oracle : Nat → TransportOutcome α) (m : Option Int)
    (s t : PagStateH α)
    (h : pagStepH oracle m s = .halt t ∨ pagStepH oracle m s = .next t) :
    t.pr = s.pr ∧ t.heap.length = s.heap.length ∧
    ∀ r2, r2 ≠ s.pr → heapGet t.heap r2 = heapGet s.heap r2 := by
  cases hmr : make_request (oracle s.i) with
  | error e =>
    simp only [pagStepH, hmr] at h
    rcases h with h | h
    · cases h
      exact ⟨rfl, updateParamsH_length s, fun r2 hne => updateParamsH_get_ne s r2 hne⟩
    · exact absurd h (by simp)
  | ok o =>
    cases o with
    | none =>
      simp only [pagStepH, hmr] at h
      rcases h with h | h
      · cases h
        exact ⟨rfl, updateParamsH_length s, fun r2 hne => updateParamsH_get_ne s r2 hne⟩
      · exact absurd h (by simp)
    | some content =>
      simp only [pagStepH, hmr] at h
      by_cases hmax : hitMax m (s.i + 1) = true
      · simp only [hmax, if_true] at h
        rcases h with h | h
        · cases h
          exact ⟨rfl, updateParamsH_length s, fun r2 hne => updateParamsH_get_ne s r2 hne⟩
        · exact absurd h (by simp)
      · rw [Bool.not_eq_true] at hmax
        simp only [hmax, Bool.false_eq_true, if_false] at h
        rcases hc : content.next_cursor with _ | oc
        · rcases hp : content.next_page with _ | op
          · simp only [hc, hp] at h
            rcases h with h | h
            · cases h
              exact ⟨rfl, updateParamsH_length s, fun r2 hne => updateParamsH_get_ne s r2 hne⟩
            · exact absurd h (by simp)
          · cases op with
            | none =>
              simp only [hc, hp] at h
              rcases h with h | h
              · cases h
                exact ⟨rfl, updateParamsH_length s, fun r2 hne => updateParamsH_get_ne s r2 hne⟩
              · exact absurd h (by simp)
            | some p =>
              simp only [hc, hp] at h
              rcases h with h | h
              · exact absurd h (by simp)
              · cases h
                exact ⟨rfl, updateParamsH_length s, fun r2 hne => updateParamsH_get_ne s r2 hne⟩
        · cases oc with
          | none =>
            simp only [hc] at h
            rcases h with h | h
            · cases h
              exact ⟨rfl, updateParamsH_length s, fun r2 hne => updateParamsH_get_ne s r2 hne⟩
            · exact absurd h (by simp)
          | some c =>
            simp only [hc] at h
            rcases h with h | h
            · exact absurd h (by simp)
            · cases h
              exact ⟨rfl, updateParamsH_length s, fun r2 hne => updateParamsH_get_ne s r2 hne⟩

theorem runPagH_frame {α : Type} (oracle : Nat → TransportOutcome α) (m : Option Int) :
    ∀ (fuel : Nat) (s final : PagStateH α),
      runPagH oracle m fuel s = some final →
      final.pr = s.pr ∧ final.heap.length = s.heap.length ∧
      ∀ r2, r2 ≠ s.pr → heapGet final.heap r2 = heapGet s.heap r2 := by
  intro fuel
  induction fuel with
  | zero =>
    intro s final h
    exact absurd h (by simp [runPagH])
  | succ f ih =>
    intro s final hrun
    simp only [runPagH] at hrun
    cases hps : pagStepH oracle m s with
    | halt t =>
      rw [hps] at hrun
      cases hrun
      exact pagStepH_frame oracle m s final (Or.inl hps)
    | next t =>
      rw [hps] at hrun
      obtain ⟨hpr, hlen, hget⟩ := pagStepH_frame oracle m s t (Or.inr hps)
      obtain ⟨hpr2, hlen2, hget2⟩ := ih t final hrun
      refine ⟨hpr2.trans hpr, hlen2.trans hlen, ?_⟩
      intro r2 hne
      rw [hget2 r2 (by rw [hpr]; exact hne), hget r2 hne]

theorem scLoopH_frame {α : Type} (oracleFam : String → Nat → TransportOutcome α)
    (maxIter : Option Int) (fuel : Nat) (scRef : Nat) :
    ∀ (gs : List String) (h : Heap) (res : List α) (h2 : Heap),
      scLoopH oracleFam maxIter fuel scRef gs h = some (res, h2) →
      ∀ r0, r0 ≠ scRef → r0 < h.length →
        heapGet h2 r0 = heapGet h r0 ∧ h.length ≤ h2.length := by
  intro gs
  induction gs with
  | nil =>
    intro h res h2 hrun r0 _ _
    simp only [scLoopH, Option.some.injEq, Prod.mk.injEq] at hrun
    rw [← hrun.2]
    exact ⟨rfl, Nat.le_refl _⟩
  | cons g gs ih =>
    intro h res h2 hrun r0 hne hlt
    simp only [scLoopH] at hrun
    cases hrp : runPagH (oracleFam g) maxIter fuel
        (initStateH (heapSetKey h scRef "geo_id" (Value.str g)) (some scRef)
          none none none) with
    | none =>
      rw [hrp] at hrun
      exact absurd hrun (by simp)
    | some final =>
      simp only [hrp] at hrun
      cases hrest : scLoopH oracleFam maxIter fuel scRef gs final.heap with
      | none =>
        simp only [hrest] at hrun
        exact absurd hrun (by simp)
      | some p =>
        obtain ⟨restItems, h3⟩ := p
        simp only [hrest, Option.some.injEq, Prod.mk.injEq] at hrun
        obtain ⟨hpr, hlen, hget⟩ := runPagH_frame (oracleFam g) maxIter fuel _ final hrp
        have hsetlen : (heapSetKey h scRef "geo_id" (Value.str g)).length = h.length :=
          heapSetKey_length h scRef "geo_id" (Value.str g)
        have hinitpr : (initStateH (α := α) (heapSetKey h scRef "geo_id" (Value.str g))
            (some scRef) none none none).pr = h.length := by
          simp [initStateH, hsetlen]
        have hinitlen : (initStateH (α := α) (heapSetKey h scRef "geo_id" (Value.str g))
            (some scRef) none none none).heap.length = h.length + 1 := by
          simp [initStateH, hsetlen]
        have hflen : final.heap.length = h.length + 1 := by
          rw [hlen, hinitlen]
        have hfget : heapGet final.heap r0 = heapGet h r0 := by
          have hr0ne : r0 ≠ (initStateH (α := α)
              (heapSetKey h scRef "geo_id" (Value.str g))
              (some scRef) none none none).pr := by
            rw [hinitpr]
            omega
          rw [hget r0 hr0ne]
          show heapGet ((heapSetKey h scRef "geo_id" (Value.str g)) ++ [_]) r0 = _
          rw [heapGet_append_lt _ _ r0 (by rw [hsetlen]; exact hlt),
            heapSetKey_frame h scRef "geo_id" (Value.str g) r0 hne]
        obtain ⟨hget3, hlen3⟩ := ih final.heap restItems h3 hrest r0 hne (by omega)
        rw [← hrun.2]
        constructor
        · rw [hget3, hfget]
        · omega

/-- C10: neither `_make_paginated_request` nor `search_contractors` ever
mutates the dict object the caller passed as `params`: both write the
pagination keys (`cursor`/`page`/`size`) and the per-identifier `geo_id`
key only into the fresh copy allocated by `{**params}` before their loops,
so after the call the caller's dict object is unchanged. -/
theorem c10_caller_params_unchanged {α : Type} :
    (∀ (oracle : Nat → TransportOutcome α) (maxIter : Option Int) (fuel : Nat) (h : Heap)
        (r0 : Nat) (page sizeV : Option Int) (cursor : Option String) (final : PagStateH α),
      r0 < h.length →
      runPagH oracle maxIter fuel (initStateH h (some r0) page sizeV cursor) = some final →
      heapGet final.heap r0 = heapGet h r0)
    ∧ (∀ (oracleFam : String → Nat → TransportOutcome α) (maxIter : Option Int) (fuel : Nat)
        (geo_ids : List String) (h : Heap) (r0 : Nat) (todayStr defaultFrom : String)
        (res : List α) (h2 : Heap),
      r0 < h.length →
      search_contractors oracleFam maxIter fuel geo_ids h (some r0) todayStr defaultFrom =
        some (res, h2) →
      heapGet h2 r0 = heapGet h r0) := by
  constructor
  · intro oracle maxIter fuel h r0 page sizeV cursor final hlt hrun
    obtain ⟨hpr, _, hget⟩ := runPagH_frame oracle maxIter fuel _ final hrun
    have hr0ne : r0 ≠ (initStateH (α := α) h (some r0) page sizeV cursor).pr := by
      simp only [initStateH]
      omega
    rw [hget r0 hr0ne]
    show heapGet (h ++ [_]) r0 = _
    exact heapGet_append_lt _ _ r0 hlt
  · intro oracleFam maxIter fuel geo_ids h r0 todayStr defaultFrom res h2 hlt hrun
    unfold search_contractors at hrun
    obtain ⟨hget, _⟩ := scLoopH_frame oracleFam maxIter fuel h.length geo_ids _ res h2 hrun
      r0 (by omega)
      (by
        rw [heapSetKey_length, heapSetKey_length]
        simp only [List.length_append, List.length_cons, List.length_nil]
        omega)
    rw [hget, heapSetKey_frame _ _ _ _ r0 (by omega), heapSetKey_frame _ _ _ _ r0 (by omega),
      heapGet_append_lt _ _ r0 hlt]

/-- Witness for C10: a concrete caller dict object survives a concrete
`search_contractors` batch unchanged. -/
def c10heap : Heap := [[("a", Value.int 5)]]

/-- Witness for C10: every fetch is a transport failure, so each chain stops
after one iteration. -/
def c10fam : String → Nat → TransportOutcome Nat := fun _ _ => .transportError

theorem c10_witness :
    ∃ res h2, search_contractors c10fam none 1 ["CA"] c10heap (some 0) "2026-10-12"
        "2026-04-15" = some (res, h2) ∧
      heapGet h2 0 = heapGet c10heap 0 := by
  cases hrun : search_contractors (α := Nat) c10fam none 1 ["CA"] c10heap (some 0)
      "2026-10-12" "2026-04-15" with
  | none => exact absurd hrun (by decide)
  | some p =>
    obtain ⟨res, h2⟩ := p
    refine ⟨res, h2, rfl, ?_⟩
    exact (c10_caller_params_unchanged (α := Nat)).2 c10fam none 1 ["CA"] c10heap 0
      "2026-10-12" "2026-04-15" res h2 (by decide) hrun

end Pyshovels
